import Mathlib

/-!
Verification of the velato animation runtime (`src/runtime`).

Numeric model: the Rust code computes with `f32`/`f64`; we embed these as `ℚ`
wherever the code only does field arithmetic and comparisons, and as `ℝ` where
trigonometry (`to_radians`, `sin`, `cos`, `tan`) or `sqrt`/`hypot` appear, so
that evaluation stays exact.  8-bit quantization of colors (a `peniko`
representation detail) is abstracted away: colors keep their clamped rational
channel values.

The repository files `src/runtime/model/value.rs`, `src/runtime/model/fixed.rs`
and `src/runtime/model/spline.rs` are not part of the provided sources; the
definitions taken from them are modelled from the specification and are marked
`Modelled from the spec:` in their doc comments.  Everything else is a direct
translation of `src/runtime/model/animated.rs`, `src/runtime/model/mod.rs` and
`src/runtime/mod.rs`.
-/

/-- 2D point with `f32` coordinates (`PointF32` in `lib.rs`); `VecF32` is the
same type in the source (`pub type VecF32 = PointF32`). -/
structure Point2 where
  x : ℚ
  y : ℚ
deriving DecidableEq

instance : Inhabited Point2 := ⟨⟨0, 0⟩⟩

/-- 2D size with `f32` components (`SizeF32` in `lib.rs`). -/
structure Size2 where
  width : ℚ
  height : ℚ
deriving DecidableEq

instance : Inhabited Size2 := ⟨⟨0, 0⟩⟩

/-- RGBA color (`peniko::Color`); channels kept as exact rationals in `[0,1]`. -/
structure Color where
  r : ℚ
  g : ℚ
  b : ℚ
  a : ℚ
deriving DecidableEq

instance : Inhabited Color := ⟨⟨0, 0, 0, 0⟩⟩

/-- Rust `clamp`: `if self < min { min } else if self > max { max } else { self }`. -/
def Qclamp (x lo hi : ℚ) : ℚ :=
  if x < lo then lo else if x > hi then hi else x

/-- `peniko::Color::rgba`: builds a color from channels clamped to `[0,1]`
(the further 8-bit quantization is abstracted away). -/
def Color.rgba (r g b a : ℚ) : Color :=
  ⟨Qclamp r 0 1, Qclamp g 0 1, Qclamp b 0 1, Qclamp a 0 1⟩

/-- `peniko::Color::with_alpha_factor`: multiplies the alpha channel by a factor. -/
def Color.withAlphaFactor (c : Color) (factor : ℚ) : Color :=
  ⟨c.r, c.g, c.b, c.a * factor⟩

/-- Gradient color stop (`peniko::ColorStop`): an offset and a color. -/
structure ColorStop where
  offset : ℚ
  color : Color
deriving DecidableEq

/-- Path element (`kurbo::PathEl`, `f64` points). -/
inductive PathEl
  | MoveTo (p : Point2)
  | LineTo (p : Point2)
  | QuadTo (p1 p2 : Point2)
  | CurveTo (p1 p2 p3 : Point2)
  | ClosePath
deriving DecidableEq

/-- Path element with `f32` points (`PathEl32` in `lib.rs`). -/
inductive PathEl32
  | MoveTo (p : Point2)
  | LineTo (p : Point2)
  | QuadTo (p1 p2 : Point2)
  | CurveTo (p1 p2 p3 : Point2)
  | ClosePath
deriving DecidableEq

/-- `PathEl32::to_path_el`: widening conversion to `kurbo::PathEl` (identity in
the rational model). -/
def PathEl32.toPathEl : PathEl32 → PathEl
  | .MoveTo p => .MoveTo p
  | .LineTo p => .LineTo p
  | .QuadTo p1 p2 => .QuadTo p1 p2
  | .CurveTo p1 p2 p3 => .CurveTo p1 p2 p3
  | .ClosePath => .ClosePath

/-- Modelled from the spec: `Easing` (from the missing `value.rs`) remaps a
linear interpolation weight in `0..1` to an eased weight; the spec fixes only
that it is a two-handle easing function, so it is kept as an abstract function
on weights. -/
structure Easing where
  apply : ℚ → ℚ

/-- The easing that leaves the weight unchanged (linear interpolation). -/
def Easing.linear : Easing := ⟨fun t => t⟩

/-- Modelled from the spec: a keyframe time entry (`Time` from the missing
`value.rs`).  `Spline` and `ColorStops` in `animated.rs` store a `Vec<Time>`
and recover an easing and a hold flag from it, so each entry carries the
keyframe's time, its easing and its hold flag. -/
structure Time where
  frame : ℚ
  easing : Easing
  hold : Bool

/-- Modelled from the spec: helper for `Time::frames_and_weight` scanning for
the bracketing keyframe pair.  `i` is the index of `k0` in the original list;
past the last keyframe the result clamps to the last keyframe with weight 0. -/
def Time.fwAux (frame : ℚ) : ℕ → Time → List Time → ((ℕ × ℕ) × ℚ × Easing × Bool)
  | i, k0, [] => ((i, i), 0, k0.easing, k0.hold)
  | i, k0, k1 :: rest =>
    if frame ≤ k1.frame then
      let dt := k1.frame - k0.frame
      let t := if dt = 0 then 0 else (frame - k0.frame) / dt
      ((i, i + 1), t, k0.easing, k0.hold)
    else Time.fwAux frame (i + 1) k1 rest

/-- Modelled from the spec: `Time::frames_and_weight` (missing `value.rs`).
Locates the bracketing keyframe pair `(k0, k1)` with `k0.time ≤ frame ≤
k1.time` over the non-decreasing time sequence, returning their indices, the
raw interpolation weight `t = (frame - k0.time) / (k1.time - k0.time)` (0 on a
zero-length interval), `k0`'s easing and `k0`'s hold flag.  A frame before the
first keyframe clamps to the first, a frame after the last clamps to the last
(weight 0); an empty sequence yields `none`.  The raw weight is returned
unadjusted: callers in `animated.rs` apply the hold flag themselves. -/
def Time.framesAndWeight (times : List Time) (frame : ℚ) :
    Option ((ℕ × ℕ) × ℚ × Easing × Bool) :=
  match times with
  | [] => none
  | k0 :: rest =>
    if frame ≤ k0.frame then some ((0, 0), 0, k0.easing, k0.hold)
    else some (Time.fwAux frame 0 k0 rest)

/-- Modelled from the spec: the `Tween` capability (missing `value.rs`).
`tween a b t e` linearly interpolates from `a` to `b` with the eased weight
`e.apply t`; for compound values every component is interpolated
independently. -/
class Tween (α : Type) where
  tween : α → α → ℚ → Easing → α

instance : Tween ℚ := ⟨fun a b t e => a + e.apply t * (b - a)⟩

instance : Tween Point2 :=
  ⟨fun a b t e => ⟨Tween.tween a.x b.x t e, Tween.tween a.y b.y t e⟩⟩

instance : Tween Size2 :=
  ⟨fun a b t e => ⟨Tween.tween a.width b.width t e, Tween.tween a.height b.height t e⟩⟩

instance : Tween Color :=
  ⟨fun a b t e => ⟨Tween.tween a.r b.r t e, Tween.tween a.g b.g t e,
    Tween.tween a.b b.b t e, Tween.tween a.a b.a t e⟩⟩

/-- Modelled from the spec: the animated half of a keyframed property
(`Animated<T>` from the missing `value.rs`): a sequence of keyframe times and
the value at each keyframe. -/
structure Animated (α : Type) where
  times : List Time
  values : List α

/-- Modelled from the spec: a keyframed property (`Value<T>` from the missing
`value.rs`): either a fixed value or an animated keyframe sequence. -/
inductive Value (α : Type)
  | Fixed (v : α)
  | Animated (v : Animated α)

/-- Modelled from the spec: `Value::is_fixed` is true iff the value is not
animated. -/
def Value.isFixed : Value α → Bool
  | .Fixed _ => true
  | .Animated _ => false

/-- Modelled from the spec: `Value::evaluate`.  A fixed value is returned
unchanged at every frame.  An animated value locates the bracketing keyframe
pair, forces the weight to 0 when `k0` holds, and tweens the two bracketing
values with the keyframe's easing; degenerate data (no keyframes, indices
outside the value list) degrades to the default value rather than failing. -/
def Value.evaluate [Inhabited α] [Tween α] : Value α → ℚ → α
  | .Fixed v, _ => v
  | .Animated a, frame =>
    match Time.framesAndWeight a.times frame with
    | none => default
    | some ((ix0, ix1), t, e, hold) =>
      match a.values[ix0]?, a.values[ix1]? with
      | some v0, some v1 => Tween.tween v0 v1 (if hold then 0 else t) e
      | _, _ => default

/-- Modelled from the spec: `ValueRef` (missing `value.rs`), a `Cow`-like
wrapper distinguishing a borrowed fixed value from a freshly computed one, so
that fixed content is reused without reallocation. -/
inductive ValueRef (α : Type)
  | Borrowed (v : α)
  | Owned (v : α)

/-- `ValueRef::into_owned`: extracts the wrapped value. -/
def ValueRef.intoOwned : ValueRef α → α
  | .Borrowed v => v
  | .Owned v => v

/-- Affine transformation (`kurbo::Affine`), coefficients `[a, b, c, d, e, f]`
for the matrix `[[a, c, e], [b, d, f]]`. -/
structure Affine where
  a : ℝ
  b : ℝ
  c : ℝ
  d : ℝ
  e : ℝ
  f : ℝ

/-- `kurbo::Affine::IDENTITY`. -/
def Affine.IDENTITY : Affine := ⟨1, 0, 0, 1, 0, 0⟩

/-- Composition of affine maps (`kurbo`'s `Mul for Affine`): `x.mul y` applies
`y` first and `x` second. -/
def Affine.mul (x y : Affine) : Affine :=
  ⟨x.a * y.a + x.c * y.b,
   x.b * y.a + x.d * y.b,
   x.a * y.c + x.c * y.d,
   x.b * y.c + x.d * y.d,
   x.a * y.e + x.c * y.f + x.e,
   x.b * y.e + x.d * y.f + x.f⟩

instance : Mul Affine := ⟨Affine.mul⟩

/-- `kurbo::Affine::translate`. -/
def Affine.translate (x y : ℝ) : Affine := ⟨1, 0, 0, 1, x, y⟩

/-- `kurbo::Affine::rotate` (angle in radians). -/
noncomputable def Affine.rotate (th : ℝ) : Affine :=
  ⟨Real.cos th, Real.sin th, -Real.sin th, Real.cos th, 0, 0⟩

/-- `kurbo::Affine::scale_non_uniform`. -/
def Affine.scaleNonUniform (sx sy : ℝ) : Affine := ⟨sx, 0, 0, sy, 0, 0⟩

/-- `kurbo::Affine::skew`. -/
def Affine.skew (sx sy : ℝ) : Affine := ⟨1, sy, sx, 1, 0, 0⟩

/-- Rust `to_radians`: degrees to radians. -/
noncomputable def toRadians (x : ℚ) : ℝ := (x : ℝ) * Real.pi / 180

/-- Animated position (`animated::Position`): either a single keyframed 2D
value or two independently keyframed scalar axes. -/
inductive animated.Position
  | Value (v : Value Point2)
  | SplitValues (v : Value ℚ × Value ℚ)

/-- Animated affine transformation (`animated::Transform`). -/
structure animated.Transform where
  anchor : Value Point2
  position : animated.Position
  rotation : Value ℚ
  scale : Value Point2
  skew : Value ℚ
  skewAngle : Value ℚ

/-- The `skew_matrix` binding inside `animated::Transform::evaluate`
(`animated.rs` lines 67–75): for a non-zero sampled skew the magnitude is
clamped to ±85 degrees and negated, and the sub-matrix is
`rotate(-angle) * skew(tan(skew), 0) * rotate(angle)`; a zero sampled skew
yields the identity. -/
noncomputable def animated.Transform.skewMatrix (self : animated.Transform) (frame : ℚ) : Affine :=
  let skew := self.skew.evaluate frame
  let skewAngle := self.skewAngle.evaluate frame
  if skew ≠ 0 then
    let skew := -(Qclamp skew (-85) 85)
    let skew := toRadians skew
    let angle := toRadians skewAngle
    Affine.rotate (-angle) * Affine.skew (Real.tan skew) 0 * Affine.rotate angle
  else
    Affine.IDENTITY

/-- `animated::Transform::evaluate` (`animated.rs` lines 54–81). -/
noncomputable def animated.Transform.evaluate (self : animated.Transform) (frame : ℚ) : Affine :=
  let anchor := self.anchor.evaluate frame
  let position :=
    match self.position with
    | animated.Position.Value v => v.evaluate frame
    | animated.Position.SplitValues xy => Point2.mk (xy.1.evaluate frame) (xy.2.evaluate frame)
  let rotation := self.rotation.evaluate frame
  let scale := self.scale.evaluate frame
  let skewMatrix := self.skewMatrix frame
  Affine.translate (position.x : ℝ) (position.y : ℝ)
    * Affine.rotate (toRadians rotation)
    * skewMatrix
    * Affine.scaleNonUniform ((scale.x : ℝ) / 100) ((scale.y : ℝ) / 100)
    * Affine.translate (-(anchor.x : ℝ)) (-(anchor.y : ℝ))

/-- Animated ellipse (`animated::Ellipse`). -/
structure animated.Ellipse where
  isCcw : Bool
  position : Value Point2
  size : Value Size2

/-- Animated rounded rectangle (`animated::Rect`). -/
structure animated.Rect where
  isCcw : Bool
  position : Value Point2
  size : Value Size2
  cornerRadius : Value ℚ

/-- Animated cubic spline (`animated::Spline`): a sequence of keyframe times
and, for each keyframe, a full control-point set. -/
structure animated.Spline where
  isClosed : Bool
  times : List Time
  values : List (List Point2)

/-- Per-point linear interpolation of control points with the raw weight
(`animated::Spline::evaluate` discards the easing and hold data before calling
`to_path`). -/
def Point2.lerp (p q : Point2) (t : ℚ) : Point2 :=
  ⟨p.x + t * (q.x - p.x), p.y + t * (q.y - p.y)⟩

/-- Modelled from the spec: segment emission of `SplineToPath` (missing
`spline.rs`): after the leading move, control points are consumed in groups of
three as cubic segments. -/
def splineSegments : List Point2 → List PathEl
  | p1 :: p2 :: p3 :: rest => PathEl.CurveTo p1 p2 p3 :: splineSegments rest
  | [p1, p2] => [PathEl.QuadTo p1 p2]
  | [p1] => [PathEl.LineTo p1]
  | [] => []

/-- Modelled from the spec: `SplineToPath::to_path` (missing `spline.rs`):
tween the two bracketing keyframes' control points pointwise with the raw
weight and append the resulting segments to the path, closing it if the
spline is flagged closed. -/
def splineToPath (ps qs : List Point2) (t : ℚ) (isClosed : Bool)
    (path : List PathEl) : List PathEl :=
  match (ps.zip qs).map (fun pq => Point2.lerp pq.1 pq.2 t) with
  | [] => path
  | p :: rest =>
    path ++ (PathEl.MoveTo p :: splineSegments rest)
      ++ (if isClosed then [PathEl.ClosePath] else [])

/-- `animated::Spline::evaluate` (`animated.rs` lines 196–207): the Rust
function mutates `path` in place and reports success; the state-passing model
returns the success flag together with the resulting path. -/
def animated.Spline.evaluate (self : animated.Spline) (frame : ℚ)
    (path : List PathEl) : Bool × List PathEl :=
  match Time.framesAndWeight self.times frame with
  | none => (false, path)
  | some ((ix0, ix1), t, _easing, _hold) =>
    match self.values[ix0]?, self.values[ix1]? with
    | some from_, some to_ => (true, splineToPath from_ to_ t self.isClosed path)
    | _, _ => (false, path)

/-- Fixed repeater parameters (`fixed::Repeater` as constructed in
`animated.rs` lines 254–263). -/
structure fixed.Repeater where
  copies : ℕ
  offset : ℚ
  anchorPoint : Point2
  position : Point2
  rotation : ℚ
  scale : Point2
  startOpacity : ℚ
  endOpacity : ℚ
deriving DecidableEq

/-- Rust `f32::round`: round half away from zero. -/
def rustRound (x : ℚ) : ℤ :=
  if 0 ≤ x then ⌊x + 1 / 2⌋ else ⌈x - 1 / 2⌉

/-- Animated repeater effect (`animated::Repeater`). -/
structure animated.Repeater where
  copies : Value ℚ
  offset : Value ℚ
  anchorPoint : Value Point2
  position : Value Point2
  rotation : Value ℚ
  scale : Value Point2
  startOpacity : Value ℚ
  endOpacity : Value ℚ

/-- `animated::Repeater::evaluate` (`animated.rs` lines 245–264): samples the
scalar parameters; the copy count is rounded (`f32::round`) and cast to
`usize`, which saturates negative values to 0. -/
def animated.Repeater.evaluate (self : animated.Repeater) (frame : ℚ) : fixed.Repeater :=
  let copies := (rustRound (self.copies.evaluate frame)).toNat
  let offset := self.offset.evaluate frame
  let anchorPoint := self.anchorPoint.evaluate frame
  let position := self.position.evaluate frame
  let rotation := self.rotation.evaluate frame
  let scale := self.scale.evaluate frame
  let startOpacity := self.startOpacity.evaluate frame
  let endOpacity := self.endOpacity.evaluate frame
  ⟨copies, offset, anchorPoint, position, rotation, scale, startOpacity, endOpacity⟩

/-- Stroke join style (`kurbo::Join`). -/
inductive Join
  | Bevel
  | Miter
  | Round
deriving DecidableEq

/-- Stroke cap style (`kurbo::Cap`). -/
inductive Cap
  | Butt
  | Square
  | Round
deriving DecidableEq

/-- Fixed stroke style (`kurbo::Stroke`). -/
structure fixed.Stroke where
  width : ℚ
  join : Join
  miterLimit : ℚ
  startCap : Cap
  endCap : Cap
  dashPattern : List ℚ
  dashOffset : ℚ
deriving DecidableEq

/-- Animated stroke properties (`animated::Stroke`). -/
structure animated.Stroke where
  width : Value ℚ
  join : Join
  miterLimit : Option ℚ
  cap : Cap

/-- `animated::Stroke::evaluate` (`animated.rs` lines 296–305):
`kurbo::Stroke::new(width)` (join `Round`, miter limit 4, caps `Round`, no
dashes), then `with_caps(cap)`, `with_join(join)` and an optional miter-limit
override. -/
def animated.Stroke.evaluate (self : animated.Stroke) (frame : ℚ) : fixed.Stroke :=
  let width := self.width.evaluate frame
  match self.miterLimit with
  | some m => ⟨width, self.join, m, self.cap, self.cap, [], 0⟩
  | none => ⟨width, self.join, 4, self.cap, self.cap, [], 0⟩

/-- Animated gradient color stops (`animated::ColorStops`): keyframe times,
one flat row of `count` 5-tuples `(offset, r, g, b, a)` per keyframe. -/
structure animated.ColorStops where
  frames : List Time
  values : List (List ℚ)
  count : ℕ

/-- One iteration of the loop in `ColorStops::evaluate_inner` (`animated.rs`
lines 373–383): reads the 5-tuple at slot `i` from both bracketing rows with
`?`-propagation, tweens the offset with the raw weight, then forces the weight
to 0 for the color channels when `k0` holds. -/
def animated.ColorStops.slot (v0 v1 : List ℚ) (t : ℚ) (e : Easing) (hold : Bool)
    (i : ℕ) : Option ColorStop :=
  let j := i * 5
  v0[j]?.bind fun o0 =>
  v1[j]?.bind fun o1 =>
  let offset := Tween.tween o0 o1 t e
  let t2 := if hold then (0 : ℚ) else t
  v0[j + 1]?.bind fun r0 =>
  v1[j + 1]?.bind fun r1 =>
  v0[j + 2]?.bind fun g0 =>
  v1[j + 2]?.bind fun g1 =>
  v0[j + 3]?.bind fun b0 =>
  v1[j + 3]?.bind fun b1 =>
  v0[j + 4]?.bind fun a0 =>
  v1[j + 4]?.bind fun a1 =>
  some ⟨offset, Color.rgba (Tween.tween r0 r1 t2 e) (Tween.tween g0 g1 t2 e)
    (Tween.tween b0 b1 t2 e) (Tween.tween a0 a1 t2 e)⟩

/-- The `for i in 0..count` loop of `ColorStops::evaluate_inner`: pushes the
stops for slots `start, start+1, …` (`n` of them), aborting on the first
missing channel. -/
def animated.ColorStops.stopsAux (v0 v1 : List ℚ) (t : ℚ) (e : Easing) (hold : Bool) :
    ℕ → ℕ → Option (List ColorStop)
  | 0, _ => some []
  | n + 1, start =>
    match animated.ColorStops.slot v0 v1 t e hold start with
    | none => none
    | some s =>
      match animated.ColorStops.stopsAux v0 v1 t e hold n (start + 1) with
      | none => none
      | some rest => some (s :: rest)

/-- `ColorStops::evaluate_inner` (`animated.rs` lines 366–385). -/
def animated.ColorStops.evaluateInner (self : animated.ColorStops) (frame : ℚ) :
    Option (List ColorStop) :=
  match Time.framesAndWeight self.frames frame with
  | none => none
  | some ((ix0, ix1), t, e, hold) =>
    match self.values[ix0]?, self.values[ix1]? with
    | some v0, some v1 => animated.ColorStops.stopsAux v0 v1 t e hold self.count 0
    | _, _ => none

/-- `ColorStops::evaluate` (`animated.rs` lines 362–364): falls back to the
empty default stop list when `evaluate_inner` fails. -/
def animated.ColorStops.evaluate (self : animated.ColorStops) (frame : ℚ) : List ColorStop :=
  (self.evaluateInner frame).getD []

/-- Gradient kind (`peniko::GradientKind`, restricted to the two kinds the
runtime constructs via `new_linear` / `new_radial`). -/
inductive GradientKind
  | Linear (start stop : Point2)
  | Radial (center : Point2) (radius : ℝ)

/-- Fixed gradient (`peniko::Gradient`): a kind plus the color stops. -/
structure fixed.Gradient where
  kind : GradientKind
  stops : List ColorStop

/-- Fixed brush (`peniko::Brush`, the variants the runtime produces). -/
inductive fixed.Brush
  | Solid (color : Color)
  | Gradient (gradient : fixed.Gradient)

/-- Model-level color stops (`model::ColorStops` from the `simple_value!`
macro in `mod.rs`): fixed stop list or animated stops. -/
inductive model.ColorStops
  | Fixed (v : List ColorStop)
  | Animated (v : animated.ColorStops)

/-- `model::ColorStops::is_fixed` (`simple_value!` macro). -/
def model.ColorStops.isFixed : model.ColorStops → Bool
  | .Fixed _ => true
  | .Animated _ => false

/-- `model::ColorStops::evaluate` (`simple_value!` macro). -/
def model.ColorStops.evaluate (self : model.ColorStops) (frame : ℚ) :
    ValueRef (List ColorStop) :=
  match self with
  | .Fixed v => .Borrowed v
  | .Animated v => .Owned (v.evaluate frame)

/-- Animated linear or radial gradient (`animated::Gradient`). -/
structure animated.Gradient where
  isRadial : Bool
  startPoint : Value Point2
  endPoint : Value Point2
  stops : model.ColorStops

/-- `animated::Gradient::evaluate` (`animated.rs` lines 337–351): samples the
start and end points and the stops; a radial gradient is centered at the start
point with radius `hypot(end - start)` (the Euclidean distance), a linear
gradient runs from start to end. -/
noncomputable def animated.Gradient.evaluate (self : animated.Gradient) (frame : ℚ) :
    fixed.Brush :=
  let start := self.startPoint.evaluate frame
  let end_ := self.endPoint.evaluate frame
  let stops := (self.stops.evaluate frame).intoOwned
  if self.isRadial then
    let radius := Real.sqrt (((end_.x - start.x : ℚ) : ℝ) ^ 2 + ((end_.y - start.y : ℚ) : ℝ) ^ 2)
    .Gradient ⟨GradientKind.Radial start radius, stops⟩
  else
    .Gradient ⟨GradientKind.Linear start end_, stops⟩

/-- Animated brush (`animated::Brush`). -/
inductive animated.Brush
  | Solid (v : Value Color)
  | Gradient (v : animated.Gradient)

/-- `animated::Brush::evaluate` (`animated.rs` lines 407–412): a solid color
is sampled and multiplied by the supplied alpha factor; a gradient defers to
the gradient evaluator (the alpha factor is unused there). -/
noncomputable def animated.Brush.evaluate (self : animated.Brush) (alpha : ℚ) (frame : ℚ) :
    fixed.Brush :=
  match self with
  | .Solid v => .Solid ((v.evaluate frame).withAlphaFactor alpha)
  | .Gradient v => v.evaluate frame

/-- Modelled from the spec: `fixed::brush_with_alpha` (missing `fixed.rs`):
multiplies the alpha factor into a solid color; the spec gives no alpha
treatment for fixed gradient brushes, which are passed through. -/
def fixed.brushWithAlpha (b : fixed.Brush) (alpha : ℚ) : fixed.Brush :=
  match b with
  | .Solid color => .Solid (color.withAlphaFactor alpha)
  | .Gradient gradient => .Gradient gradient

/-- Fixed transform (`model::Transform::Fixed` stores a `kurbo::Affine`). -/
def fixed.Transform := Affine

/-- Model-level transform (`model::Transform` from the `simple_value!` macro):
fixed affine or animated transform. -/
inductive model.Transform
  | Fixed (v : Affine)
  | Animated (v : animated.Transform)

/-- `model::Transform::is_fixed` (`simple_value!` macro). -/
def model.Transform.isFixed : model.Transform → Bool
  | .Fixed _ => true
  | .Animated _ => false

/-- `model::Transform::evaluate` (`simple_value!` macro). -/
noncomputable def model.Transform.evaluate (self : model.Transform) (frame : ℚ) :
    ValueRef Affine :=
  match self with
  | .Fixed v => .Borrowed v
  | .Animated v => .Owned (v.evaluate frame)

/-- Model-level stroke (`model::Stroke` from the `simple_value!` macro). -/
inductive model.Stroke
  | Fixed (v : fixed.Stroke)
  | Animated (v : animated.Stroke)

/-- `model::Stroke::is_fixed` (`simple_value!` macro). -/
def model.Stroke.isFixed : model.Stroke → Bool
  | .Fixed _ => true
  | .Animated _ => false

/-- `model::Stroke::evaluate` (`simple_value!` macro). -/
def model.Stroke.evaluate (self : model.Stroke) (frame : ℚ) : ValueRef fixed.Stroke :=
  match self with
  | .Fixed v => .Borrowed v
  | .Animated v => .Owned (v.evaluate frame)

/-- Model-level repeater (`model::Repeater` from the `simple_value!` macro). -/
inductive model.Repeater
  | Fixed (v : fixed.Repeater)
  | Animated (v : animated.Repeater)

/-- `model::Repeater::is_fixed` (`simple_value!` macro). -/
def model.Repeater.isFixed : model.Repeater → Bool
  | .Fixed _ => true
  | .Animated _ => false

/-- `model::Repeater::evaluate` (`simple_value!` macro). -/
def model.Repeater.evaluate (self : model.Repeater) (frame : ℚ) : ValueRef fixed.Repeater :=
  match self with
  | .Fixed v => .Borrowed v
  | .Animated v => .Owned (v.evaluate frame)

/-- Model-level brush (`model::Brush`, `mod.rs` lines 49–72). -/
inductive model.Brush
  | Fixed (v : fixed.Brush)
  | Animated (v : animated.Brush)

/-- `model::Brush::is_fixed` (`mod.rs` lines 56–58). -/
def model.Brush.isFixed : model.Brush → Bool
  | .Fixed _ => true
  | .Animated _ => false

/-- `model::Brush::evaluate` (`mod.rs` lines 60–71): a fixed brush is borrowed
unchanged when the alpha factor is exactly 1 and otherwise re-built with the
alpha factor applied; an animated brush is evaluated with the alpha factor. -/
noncomputable def model.Brush.evaluate (self : model.Brush) (alpha : ℚ) (frame : ℚ) :
    ValueRef fixed.Brush :=
  match self with
  | .Fixed v => if alpha = 1 then .Borrowed v else .Owned (fixed.brushWithAlpha v alpha)
  | .Animated v => .Owned (v.evaluate alpha frame)

/-- Layer geometry (`model::Geometry`, `mod.rs` lines 80–86). -/
inductive model.Geometry
  | Fixed (v : List PathEl32)
  | Rect (v : animated.Rect)
  | Ellipse (v : animated.Ellipse)
  | Spline (v : animated.Spline)

/-- Fill or stroke element (`model::Draw`, `mod.rs` lines 107–115). -/
structure model.Draw where
  stroke : Option model.Stroke
  brush : model.Brush
  opacity : Value ℚ

/-- Transform and opacity for a shape group (`model::GroupTransform`). -/
structure model.GroupTransform where
  transform : model.Transform
  opacity : Value ℚ

/-- Element of a shape layer (`model::Shape`, `mod.rs` lines 118–128). -/
inductive model.Shape
  | Group (shapes : List model.Shape) (transform : Option model.GroupTransform)
  | Geometry (v : model.Geometry)
  | Draw (v : model.Draw)
  | Repeater (v : model.Repeater)

/-- Blend mode (`peniko::BlendMode`: a mix and a compose mode, modelled by
their discriminants). -/
structure BlendMode where
  mix : ℕ
  compose : ℕ
deriving DecidableEq

/-- Mask for a layer (`model::Mask`). -/
structure model.Mask where
  mode : BlendMode
  geometry : model.Geometry
  opacity : Value ℚ

/-- Content of a layer (`model::Content`). -/
inductive model.Content
  | None
  | Instance (name : String) (timeRemap : Option (Value ℚ))
  | Shape (shapes : List model.Shape)

/-- Half-open frame range (`std::ops::Range<f64>`); `stop` is the exclusive
upper bound (`end` in Rust). -/
structure RangeQ where
  start : ℚ
  stop : ℚ

/-- Layer in an animation (`model::Layer`, `mod.rs` lines 138–168). -/
structure model.Layer where
  name : String
  parent : Option ℕ
  transform : model.Transform
  opacity : Value ℚ
  width : ℚ
  height : ℚ
  blendMode : Option BlendMode
  frames : RangeQ
  stretch : ℚ
  startFrame : ℚ
  masks : List model.Mask
  isMask : Bool
  maskLayer : Option (BlendMode × ℕ)
  content : model.Content

/-- Model of a Lottie file (`Composition` in `runtime/mod.rs` lines 18–32,
namespaced here to avoid clashing with a library name); the
`HashMap` of assets is modelled as an association list. -/
structure runtime.Composition where
  frames : RangeQ
  frameRate : ℚ
  width : ℕ
  height : ℕ
  assets : List (String × List model.Layer)
  layers : List model.Layer

/-- Serde mirror of `Composition` (`CompositionSerde`, `runtime/mod.rs` lines
65–79). -/
structure runtime.CompositionSerde where
  frames : RangeQ
  frameRate : ℚ
  width : ℕ
  height : ℕ
  assets : List (String × List model.Layer)
  layers : List model.Layer

/-- `CompositionSerde::to_serde` (`runtime/mod.rs` lines 82–91). -/
def runtime.CompositionSerde.toSerde (composition : runtime.Composition) : runtime.CompositionSerde :=
  ⟨composition.frames, composition.frameRate, composition.width, composition.height,
   composition.assets, composition.layers⟩

/-- `CompositionSerde::from_serde` (`runtime/mod.rs` lines 93–102). -/
def runtime.CompositionSerde.fromSerde (composition : runtime.CompositionSerde) : runtime.Composition :=
  ⟨composition.frames, composition.frameRate, composition.width, composition.height,
   composition.assets, composition.layers⟩

/-- Concrete transform exercising the skew path: skew 45°, skew angle 0°. -/
def exC2transform : animated.Transform :=
  ⟨Value.Fixed ⟨0, 0⟩, animated.Position.Value (Value.Fixed ⟨0, 0⟩), Value.Fixed 0,
   Value.Fixed ⟨100, 100⟩, Value.Fixed 45, Value.Fixed 0⟩

/-- Concrete color stops with a hold keyframe at frame 0 (offset 1/5, black)
followed by a keyframe at frame 10 (offset 4/5, white). -/
def exC3stops : animated.ColorStops :=
  ⟨[⟨0, Easing.linear, true⟩, ⟨10, Easing.linear, false⟩],
   [[1/5, 0, 0, 0, 1], [4/5, 1, 1, 1, 1]], 1⟩

/-- Concrete radial gradient from (0,0) to (3,4) with no stops. -/
def exC5gradient : animated.Gradient :=
  ⟨true, Value.Fixed ⟨0, 0⟩, Value.Fixed ⟨3, 4⟩, model.ColorStops.Fixed []⟩

/-- Concrete repeater with a negative fixed copy count. -/
def exC6repeater : animated.Repeater :=
  ⟨Value.Fixed (-3), Value.Fixed 0, Value.Fixed ⟨0, 0⟩, Value.Fixed ⟨0, 0⟩,
   Value.Fixed 0, Value.Fixed ⟨100, 100⟩, Value.Fixed 1, Value.Fixed 1⟩

/-- Tween on rationals unfolded: linear interpolation with the eased weight. -/
theorem tween_rat_def (a b t : ℚ) (e : Easing) :
    Tween.tween a b t e = a + e.apply t * (b - a) := rfl

/-- Tween at weight 0 returns the first value whenever the easing fixes 0. -/
theorem tween_rat_zero (a b : ℚ) (e : Easing) (he : e.apply 0 = 0) :
    Tween.tween a b 0 e = a := by
  rw [tween_rat_def, he]; ring

/-- The identity affine map is a left unit for composition. -/
theorem Affine.id_mul (x : Affine) : Affine.IDENTITY * x = x := by
  cases x
  show Affine.mul _ _ = _
  simp [Affine.mul, Affine.IDENTITY]

/-- The identity affine map is a right unit for composition. -/
theorem Affine.mul_id (x : Affine) : x * Affine.IDENTITY = x := by
  cases x
  show Affine.mul _ _ = _
  simp [Affine.mul, Affine.IDENTITY]

/-- Rotation by the zero angle is the identity map. -/
theorem Affine.rotate_zero : Affine.rotate 0 = Affine.IDENTITY := by
  simp [Affine.rotate, Affine.IDENTITY]

/-- Zero degrees is zero radians. -/
theorem toRadians_zero : toRadians 0 = 0 := by
  simp [toRadians]

/-- 45 degrees is π/4 radians. -/
theorem toRadians_fortyfive : toRadians 45 = Real.pi / 4 := by
  simp only [toRadians]
  push_cast
  ring

/-- Minus 45 degrees is -π/4 radians. -/
theorem toRadians_neg_fortyfive : toRadians (-45) = -(Real.pi / 4) := by
  simp only [toRadians]
  push_cast
  ring

/-- A successful `stopsAux` run emits exactly the requested number of stops. -/
theorem stopsAux_length (v0 v1 : List ℚ) (t : ℚ) (e : Easing) (hold : Bool) :
    ∀ (n start : ℕ) (l : List ColorStop),
      animated.ColorStops.stopsAux v0 v1 t e hold n start = some l → l.length = n := by
  intro n
  induction n with
  | zero =>
    intro start l h
    simp [animated.ColorStops.stopsAux] at h
    simp [← h]
  | succ k ih =>
    intro start l h
    cases hs : animated.ColorStops.slot v0 v1 t e hold start with
    | none => simp [animated.ColorStops.stopsAux, hs] at h
    | some s =>
      cases hr : animated.ColorStops.stopsAux v0 v1 t e hold k (start + 1) with
      | none => simp [animated.ColorStops.stopsAux, hs, hr] at h
      | some rest =>
        have hl : l = s :: rest := by
          simp [animated.ColorStops.stopsAux, hs, hr] at h
          exact h.symm
        subst hl
        simp [ih (start + 1) rest hr]

/-- Every stop emitted by a successful `stopsAux` run comes from `slot` at the
corresponding index. -/
theorem stopsAux_get (v0 v1 : List ℚ) (t : ℚ) (e : Easing) (hold : Bool) :
    ∀ (n start : ℕ) (l : List ColorStop),
      animated.ColorStops.stopsAux v0 v1 t e hold n start = some l →
      ∀ (j : ℕ) (stop : ColorStop), l[j]? = some stop →
        animated.ColorStops.slot v0 v1 t e hold (start + j) = some stop := by
  intro n
  induction n with
  | zero =>
    intro start l h j stop hj
    simp [animated.ColorStops.stopsAux] at h
    subst h
    simp at hj
  | succ k ih =>
    intro start l h j stop hj
    cases hs : animated.ColorStops.slot v0 v1 t e hold start with
    | none => simp [animated.ColorStops.stopsAux, hs] at h
    | some s =>
      cases hr : animated.ColorStops.stopsAux v0 v1 t e hold k (start + 1) with
      | none => simp [animated.ColorStops.stopsAux, hs, hr] at h
      | some rest =>
        have hl : l = s :: rest := by
          simp [animated.ColorStops.stopsAux, hs, hr] at h
          exact h.symm
        subst hl
        cases j with
        | zero =>
          simp at hj
          rw [Nat.add_zero, ← hj]
          exact hs
        | succ j' =>
          have := ih (start + 1) rest hr j' stop (by simpa using hj)
          rw [show start + (j' + 1) = start + 1 + j' by omega]
          exact this

/-- Inversion of one successful `slot` iteration: all ten channel reads
succeeded, the offset was tweened with the raw weight and the color channels
with the hold-adjusted weight. -/
theorem slot_eq_some {v0 v1 : List ℚ} {t : ℚ} {e : Easing} {hold : Bool} {i : ℕ}
    {stop : ColorStop}
    (hs : animated.ColorStops.slot v0 v1 t e hold i = some stop) :
    ∃ o0 o1 r0 r1 g0 g1 b0 b1 a0 a1,
      v0[i * 5]? = some o0 ∧ v1[i * 5]? = some o1 ∧
      v0[i * 5 + 1]? = some r0 ∧ v1[i * 5 + 1]? = some r1 ∧
      v0[i * 5 + 2]? = some g0 ∧ v1[i * 5 + 2]? = some g1 ∧
      v0[i * 5 + 3]? = some b0 ∧ v1[i * 5 + 3]? = some b1 ∧
      v0[i * 5 + 4]? = some a0 ∧ v1[i * 5 + 4]? = some a1 ∧
      stop = ⟨Tween.tween o0 o1 t e,
        Color.rgba (Tween.tween r0 r1 (if hold then 0 else t) e)
          (Tween.tween g0 g1 (if hold then 0 else t) e)
          (Tween.tween b0 b1 (if hold then 0 else t) e)
          (Tween.tween a0 a1 (if hold then 0 else t) e)⟩ := by
  simp only [animated.ColorStops.slot, Option.bind_eq_some, Option.pure_def,
    Option.some.injEq] at hs
  obtain ⟨o0, h1, o1, h2, r0, h3, r1, h4, g0, h5, g1, h6, b0, h7, b1, h8, a0, h9, a1, h10, heq⟩ := hs
  exact ⟨o0, o1, r0, r1, g0, g1, b0, b1, a0, a1, h1, h2, h3, h4, h5, h6, h7, h8, h9, h10, heq.symm⟩

/-- C1: at every frame the animated transform evaluates to the product
`translate(position) * rotate(rotation) * skew-sub-matrix * scale(scale/100) *
translate(-anchor)`, where the position is either the single sampled 2D value
or the pair of independently sampled split axes, the rotation is converted
from degrees to radians and the scale is divided by 100. -/
theorem claim_C1 (tr : animated.Transform) (f : ℚ) :
    tr.evaluate f =
      (let position :=
        match tr.position with
        | animated.Position.Value v => v.evaluate f
        | animated.Position.SplitValues xy => Point2.mk (xy.1.evaluate f) (xy.2.evaluate f)
      Affine.translate (position.x : ℝ) (position.y : ℝ)
        * Affine.rotate (toRadians (tr.rotation.evaluate f))
        * tr.skewMatrix f
        * Affine.scaleNonUniform (((tr.scale.evaluate f).x : ℝ) / 100)
            (((tr.scale.evaluate f).y : ℝ) / 100)
        * Affine.translate (-((tr.anchor.evaluate f).x : ℝ))
            (-((tr.anchor.evaluate f).y : ℝ))) := by
  cases tr
  rfl

/-- C2 (amended): for a non-zero sampled skew the skew sub-matrix is
`rotate(-angle) * shear(tan(s), 0) * rotate(angle)` where `s` is the
*negation* of the sampled skew clamped to ±85 degrees (the code negates the
clamped skew before taking the tangent); for a zero sampled skew it is the
identity. -/
theorem claim_C2_amended (tr : animated.Transform) (f : ℚ) :
    (tr.skew.evaluate f ≠ 0 →
      tr.skewMatrix f =
        Affine.rotate (-(toRadians (tr.skewAngle.evaluate f)))
          * Affine.skew (Real.tan (toRadians (-(Qclamp (tr.skew.evaluate f) (-85) 85)))) 0
          * Affine.rotate (toRadians (tr.skewAngle.evaluate f))) ∧
    (tr.skew.evaluate f = 0 → tr.skewMatrix f = Affine.IDENTITY) := by
  constructor
  · intro h
    simp [animated.Transform.skewMatrix, h]
  · intro h
    simp [animated.Transform.skewMatrix, h]

/-- C2 witness: the amended statement at the concrete transform with sampled
skew 45 and skew angle 0. -/
theorem claim_C2_amended_witness :
    exC2transform.skew.evaluate 0 ≠ 0 ∧
    exC2transform.skewMatrix 0 =
      Affine.rotate (-(toRadians (exC2transform.skewAngle.evaluate 0)))
        * Affine.skew (Real.tan (toRadians (-(Qclamp (exC2transform.skew.evaluate 0) (-85) 85)))) 0
        * Affine.rotate (toRadians (exC2transform.skewAngle.evaluate 0)) :=
  ⟨by decide, (claim_C2_amended exC2transform 0).1 (by decide)⟩

/-- C2 counterexample: with sampled skew 45 and skew angle 0 the skew
sub-matrix actually built by the code differs from the claimed
`rotate(-angle) * shear(tan(clamped skew), 0) * rotate(angle)` — the code
negates the clamped skew, so its shear coefficient is `tan(-45°) = -1`, not
`tan(45°) = 1`. -/
theorem claim_C2_counterexample :
    ¬ (exC2transform.skewMatrix 0 =
        Affine.rotate (-(toRadians (exC2transform.skewAngle.evaluate 0)))
          * Affine.skew (Real.tan (toRadians (Qclamp (exC2transform.skew.evaluate 0) (-85) 85))) 0
          * Affine.rotate (toRadians (exC2transform.skewAngle.evaluate 0))) := by
  intro h
  have hskew : exC2transform.skew.evaluate 0 = 45 := rfl
  have hangle : exC2transform.skewAngle.evaluate 0 = 0 := rfl
  have hclamp : Qclamp (45 : ℚ) (-85) 85 = 45 := by norm_num [Qclamp]
  have hm : exC2transform.skewMatrix 0 =
      Affine.rotate (-(toRadians 0))
        * Affine.skew (Real.tan (toRadians (-(Qclamp (45 : ℚ) (-85) 85)))) 0
        * Affine.rotate (toRadians 0) := by
    simp only [animated.Transform.skewMatrix, hskew, hangle]
    norm_num
  rw [hm, hskew, hangle, hclamp, toRadians_zero, neg_zero, Affine.rotate_zero] at h
  simp only [Affine.id_mul, Affine.mul_id] at h
  rw [toRadians_fortyfive, toRadians_neg_fortyfive] at h
  have hc := congrArg Affine.c h
  simp only [Affine.skew, Real.tan_neg, Real.tan_pi_div_four] at hc
  norm_num at hc

/-- C5: at every frame a radial gradient evaluates to a radial brush centered
at the sampled start point whose radius is the Euclidean distance between the
sampled start and end points, carrying the evaluated stops. -/
theorem claim_C5 (g : animated.Gradient) (f : ℚ) (h : g.isRadial = true) :
    g.evaluate f =
      fixed.Brush.Gradient ⟨GradientKind.Radial (g.startPoint.evaluate f)
        (Real.sqrt ((((g.endPoint.evaluate f).x - (g.startPoint.evaluate f).x : ℚ) : ℝ) ^ 2 +
          (((g.endPoint.evaluate f).y - (g.startPoint.evaluate f).y : ℚ) : ℝ) ^ 2)),
        (g.stops.evaluate f).intoOwned⟩ := by
  simp [animated.Gradient.evaluate, h]

/-- C5 witness: the radial gradient from (0,0) to (3,4) evaluates to a radial
brush centered at (0,0) with radius exactly 5. -/
theorem claim_C5_witness :
    exC5gradient.isRadial = true ∧
    exC5gradient.evaluate 0 = fixed.Brush.Gradient ⟨GradientKind.Radial ⟨0, 0⟩ 5, []⟩ := by
  refine ⟨rfl, ?_⟩
  rw [claim_C5 exC5gradient 0 rfl]
  have h1 : exC5gradient.startPoint.evaluate 0 = ⟨0, 0⟩ := rfl
  have h2 : exC5gradient.endPoint.evaluate 0 = ⟨3, 4⟩ := rfl
  have h3 : (exC5gradient.stops.evaluate 0).intoOwned = [] := rfl
  rw [h1, h2, h3]
  have h4 : Real.sqrt (((((3 : ℚ) - 0 : ℚ)) : ℝ) ^ 2 + ((((4 : ℚ) - 0 : ℚ)) : ℝ) ^ 2) = 5 := by
    have h25 : ((((3 : ℚ) - 0 : ℚ)) : ℝ) ^ 2 + ((((4 : ℚ) - 0 : ℚ)) : ℝ) ^ 2 = 5 ^ 2 := by
      push_cast
      norm_num
    rw [h25, Real.sqrt_sq (by norm_num : (0 : ℝ) ≤ 5)]
  simp only [h4]

/-- C6 (amended): at every frame the repeater evaluation returns exactly the
sampled scalar parameters, with the copy count equal to the sampled copies
value rounded to the nearest integer (half away from zero) and clamped below
to zero by the `usize` cast; no expansion into copies happens here. -/
theorem claim_C6_amended (r : animated.Repeater) (f : ℚ) :
    r.evaluate f =
      ⟨(rustRound (r.copies.evaluate f)).toNat, r.offset.evaluate f,
        r.anchorPoint.evaluate f, r.position.evaluate f, r.rotation.evaluate f,
        r.scale.evaluate f, r.startOpacity.evaluate f, r.endOpacity.evaluate f⟩ := rfl

/-- C6 counterexample: for a fixed copies value of -3 the evaluated copy count
is 0 (the `usize` cast saturates), not the rounded-to-nearest value -3 the
claim demands. -/
theorem claim_C6_counterexample :
    ¬ (((exC6repeater.evaluate 0).copies : ℤ) = rustRound (exC6repeater.copies.evaluate 0)) := by
  have h1 : rustRound (exC6repeater.copies.evaluate 0) = -3 := by
    show rustRound (-3) = -3
    norm_num [rustRound]
    rw [Int.ceil_eq_iff]
    norm_num
  intro h
  rw [h1] at h
  have h2 : (exC6repeater.evaluate 0).copies =
      (rustRound (exC6repeater.copies.evaluate 0)).toNat := rfl
  rw [h2, h1] at h
  exact absurd h (by decide)

/-- C7: every model value in the `Fixed` variant reports `is_fixed() = true`
and evaluates to (a borrow of) the same stored value at every frame — for
`Transform`, `Stroke`, `Repeater`, `ColorStops`, and for `Brush` evaluated
with alpha factor 1. -/
theorem claim_C7 :
    (∀ (v : Affine) (f1 f2 : ℚ), (model.Transform.Fixed v).isFixed = true ∧
      (model.Transform.Fixed v).evaluate f1 = ValueRef.Borrowed v ∧
      (model.Transform.Fixed v).evaluate f1 = (model.Transform.Fixed v).evaluate f2) ∧
    (∀ (v : fixed.Stroke) (f1 f2 : ℚ), (model.Stroke.Fixed v).isFixed = true ∧
      (model.Stroke.Fixed v).evaluate f1 = ValueRef.Borrowed v ∧
      (model.Stroke.Fixed v).evaluate f1 = (model.Stroke.Fixed v).evaluate f2) ∧
    (∀ (v : fixed.Repeater) (f1 f2 : ℚ), (model.Repeater.Fixed v).isFixed = true ∧
      (model.Repeater.Fixed v).evaluate f1 = ValueRef.Borrowed v ∧
      (model.Repeater.Fixed v).evaluate f1 = (model.Repeater.Fixed v).evaluate f2) ∧
    (∀ (v : List ColorStop) (f1 f2 : ℚ), (model.ColorStops.Fixed v).isFixed = true ∧
      (model.ColorStops.Fixed v).evaluate f1 = ValueRef.Borrowed v ∧
      (model.ColorStops.Fixed v).evaluate f1 = (model.ColorStops.Fixed v).evaluate f2) ∧
    (∀ (v : fixed.Brush) (f1 f2 : ℚ), (model.Brush.Fixed v).isFixed = true ∧
      (model.Brush.Fixed v).evaluate 1 f1 = ValueRef.Borrowed v ∧
      (model.Brush.Fixed v).evaluate 1 f1 = (model.Brush.Fixed v).evaluate 1 f2) := by
  refine ⟨fun v f1 f2 => ⟨rfl, rfl, rfl⟩, fun v f1 f2 => ⟨rfl, rfl, rfl⟩,
    fun v f1 f2 => ⟨rfl, rfl, rfl⟩, fun v f1 f2 => ⟨rfl, rfl, rfl⟩,
    fun v f1 f2 => ⟨rfl, ?_, ?_⟩⟩ <;> simp [model.Brush.evaluate]

/-- C8: an animated gradient brush evaluates independently of the supplied
alpha factor, while a solid brush multiplies the alpha factor into the
sampled color. -/
theorem claim_C8 :
    (∀ (g : animated.Gradient) (a1 a2 f : ℚ),
      (animated.Brush.Gradient g).evaluate a1 f = (animated.Brush.Gradient g).evaluate a2 f) ∧
    (∀ (c : Value Color) (a f : ℚ),
      (animated.Brush.Solid c).evaluate a f =
        fixed.Brush.Solid ((c.evaluate f).withAlphaFactor a)) :=
  ⟨fun _ _ _ _ => rfl, fun _ _ _ => rfl⟩

/-- C10: converting a composition to its serde mirror and back is the
identity. -/
theorem claim_C10 (c : runtime.Composition) :
    runtime.CompositionSerde.fromSerde (runtime.CompositionSerde.toSerde c) = c := rfl

/-- C3 (amended): when the bracketing keyframe `k0` holds (and its easing
fixes weight 0, as every two-handle easing does), every stop emitted by
`ColorStops::evaluate` takes its r, g, b, a channels exactly from `k0`'s
stored row — but its offset is interpolated between `k0`'s and `k1`'s offsets
with the raw eased weight, because the code computes the offset before
applying the hold flag. -/
theorem claim_C3_amended (cs : animated.ColorStops) (f : ℚ) (ix0 ix1 : ℕ) (t : ℚ)
    (e : Easing) (v0 v1 : List ℚ)
    (hfw : Time.framesAndWeight cs.frames f = some ((ix0, ix1), t, e, true))
    (he : e.apply 0 = 0)
    (hv0 : cs.values[ix0]? = some v0) (hv1 : cs.values[ix1]? = some v1)
    (i : ℕ) (stop : ColorStop) (hstop : (cs.evaluate f)[i]? = some stop) :
    ∃ o0 o1 r g b a,
      v0[i * 5]? = some o0 ∧ v1[i * 5]? = some o1 ∧
      v0[i * 5 + 1]? = some r ∧ v0[i * 5 + 2]? = some g ∧
      v0[i * 5 + 3]? = some b ∧ v0[i * 5 + 4]? = some a ∧
      stop = ⟨Tween.tween o0 o1 t e, Color.rgba r g b a⟩ := by
  unfold animated.ColorStops.evaluate animated.ColorStops.evaluateInner at hstop
  simp only [hfw, hv0, hv1] at hstop
  cases haux : animated.ColorStops.stopsAux v0 v1 t e true cs.count 0 with
  | none => rw [haux] at hstop; simp at hstop
  | some l =>
    rw [haux] at hstop
    simp only [Option.getD_some] at hstop
    have hslot := stopsAux_get v0 v1 t e true cs.count 0 l haux i stop hstop
    rw [Nat.zero_add] at hslot
    obtain ⟨o0, o1, r0, r1, g0, g1, b0, b1, a0, a1, h1, h2, h3, h4, h5, h6, h7, h8, h9, h10,
      heq⟩ := slot_eq_some hslot
    refine ⟨o0, o1, r0, g0, b0, a0, h1, h2, h3, h5, h7, h9, ?_⟩
    have hz : ∀ a b : ℚ, Tween.tween a b (if (true : Bool) then 0 else t) e = a := by
      intro a b
      rw [if_pos rfl]
      exact tween_rat_zero a b e he
    rw [heq, hz, hz, hz, hz]

/-- C3 witness: the amended statement at the concrete hold data — with `k0` at
frame 0 (offset 1/5, opaque black) holding and `k1` at frame 10 (offset 4/5,
opaque white), frame 5 emits the stop with held color but offset 1/2. -/
theorem claim_C3_amended_witness :
    Easing.linear.apply 0 = 0 ∧
    ∃ o0 o1 r g b a,
      ([1/5, 0, 0, 0, 1] : List ℚ)[0 * 5]? = some o0 ∧
      ([4/5, 1, 1, 1, 1] : List ℚ)[0 * 5]? = some o1 ∧
      ([1/5, 0, 0, 0, 1] : List ℚ)[0 * 5 + 1]? = some r ∧
      ([1/5, 0, 0, 0, 1] : List ℚ)[0 * 5 + 2]? = some g ∧
      ([1/5, 0, 0, 0, 1] : List ℚ)[0 * 5 + 3]? = some b ∧
      ([1/5, 0, 0, 0, 1] : List ℚ)[0 * 5 + 4]? = some a ∧
      (⟨1/2, ⟨0, 0, 0, 1⟩⟩ : ColorStop) =
        ⟨Tween.tween o0 o1 (1/2) Easing.linear, Color.rgba r g b a⟩ :=
  ⟨rfl, claim_C3_amended exC3stops 5 0 1 (1/2) Easing.linear [1/5, 0, 0, 0, 1]
    [4/5, 1, 1, 1, 1] (by norm_num [exC3stops, Time.framesAndWeight, Time.fwAux]) rfl rfl rfl 0
    ⟨1/2, ⟨0, 0, 0, 1⟩⟩ (by
      have hfw : Time.framesAndWeight
          [⟨0, Easing.linear, true⟩, ⟨10, Easing.linear, false⟩] 5 =
          some ((0, 1), 1/2, Easing.linear, true) := by
        norm_num [Time.framesAndWeight, Time.fwAux]
      have hslot : animated.ColorStops.slot [1/5, 0, 0, 0, 1] [4/5, 1, 1, 1, 1] (1/2)
          Easing.linear true 0 = some ⟨1/2, ⟨0, 0, 0, 1⟩⟩ := by
        norm_num [animated.ColorStops.slot, tween_rat_def, Easing.linear, Color.rgba, Qclamp]
      norm_num [exC3stops, animated.ColorStops.evaluate, animated.ColorStops.evaluateInner,
        hfw, animated.ColorStops.stopsAux, hslot])⟩

/-- C3 counterexample: with the hold keyframe storing offset 1/5 and the next
keyframe offset 4/5, frame 5 emits a stop whose offset is 1/2 — not the held
stop with `k0`'s offset 1/5 that the claim predicts for all five channels. -/
theorem claim_C3_counterexample :
    animated.ColorStops.evaluate exC3stops 5 = [⟨1/2, ⟨0, 0, 0, 1⟩⟩] ∧
    animated.ColorStops.evaluate exC3stops 5 ≠ [⟨1/5, ⟨0, 0, 0, 1⟩⟩] := by
  have hfw : Time.framesAndWeight
      [⟨0, Easing.linear, true⟩, ⟨10, Easing.linear, false⟩] 5 =
      some ((0, 1), 1/2, Easing.linear, true) := by
    norm_num [Time.framesAndWeight, Time.fwAux]
  have hslot : animated.ColorStops.slot [1/5, 0, 0, 0, 1] [4/5, 1, 1, 1, 1] (1/2)
      Easing.linear true 0 = some ⟨1/2, ⟨0, 0, 0, 1⟩⟩ := by
    norm_num [animated.ColorStops.slot, tween_rat_def, Easing.linear, Color.rgba, Qclamp]
  have heval : animated.ColorStops.evaluate exC3stops 5 = [⟨1/2, ⟨0, 0, 0, 1⟩⟩] := by
    norm_num [exC3stops, animated.ColorStops.evaluate, animated.ColorStops.evaluateInner,
      hfw, animated.ColorStops.stopsAux, hslot]
  refine ⟨heval, ?_⟩
  rw [heval]
  norm_num

/-- C4: malformed or empty animated data degrades to "nothing drawn":
a spline with no keyframe times, or whose bracketing indices fall outside its
values, reports failure and leaves the path untouched; color stops with no
keyframe frames, or with a bracketing row missing, evaluate to the empty
default stop list. -/
theorem claim_C4 :
    (∀ (s : animated.Spline) (f : ℚ) (path : List PathEl), s.times = [] →
      s.evaluate f path = (false, path)) ∧
    (∀ (s : animated.Spline) (f : ℚ) (path : List PathEl) (ix0 ix1 : ℕ) (t : ℚ)
      (e : Easing) (hold : Bool),
      Time.framesAndWeight s.times f = some ((ix0, ix1), t, e, hold) →
      s.values[ix0]? = none ∨ s.values[ix1]? = none →
      s.evaluate f path = (false, path)) ∧
    (∀ (cs : animated.ColorStops) (f : ℚ), cs.frames = [] → cs.evaluate f = []) ∧
    (∀ (cs : animated.ColorStops) (f : ℚ) (ix0 ix1 : ℕ) (t : ℚ) (e : Easing) (hold : Bool),
      Time.framesAndWeight cs.frames f = some ((ix0, ix1), t, e, hold) →
      cs.values[ix0]? = none ∨ cs.values[ix1]? = none →
      cs.evaluate f = []) := by
  refine ⟨?_, ?_, ?_, ?_⟩
  · intro s f path h
    unfold animated.Spline.evaluate
    rw [h]
    rfl
  · intro s f path ix0 ix1 t e hold hfw hmiss
    unfold animated.Spline.evaluate
    simp only [hfw]
    rcases hmiss with hm | hm
    · simp [hm]
    · cases h0 : s.values[ix0]? with
      | none => simp [h0]
      | some v => simp [h0, hm]
  · intro cs f h
    unfold animated.ColorStops.evaluate animated.ColorStops.evaluateInner
    rw [h]
    rfl
  · intro cs f ix0 ix1 t e hold hfw hmiss
    unfold animated.ColorStops.evaluate animated.ColorStops.evaluateInner
    simp only [hfw]
    rcases hmiss with hm | hm
    · simp [hm]
    · cases h0 : cs.values[ix0]? with
      | none => simp [h0]
      | some v => simp [h0, hm]

/-- C4 witness: the four degenerate shapes at concrete data — an empty spline,
a spline with keyframes but no values, empty color-stop frames, and color
stops with keyframes but no value rows. -/
theorem claim_C4_witness :
    animated.Spline.evaluate ⟨false, [], []⟩ 0 [] = (false, []) ∧
    animated.Spline.evaluate
      ⟨false, [⟨0, Easing.linear, false⟩, ⟨10, Easing.linear, false⟩], []⟩ 5 [] = (false, []) ∧
    animated.ColorStops.evaluate ⟨[], [], 1⟩ 0 = [] ∧
    animated.ColorStops.evaluate ⟨[⟨0, Easing.linear, false⟩], [], 1⟩ 0 = [] :=
  ⟨claim_C4.1 _ 0 [] rfl,
   claim_C4.2.1 _ 5 [] 0 1 (1/2) Easing.linear false
     (by norm_num [Time.framesAndWeight, Time.fwAux]) (Or.inl rfl),
   claim_C4.2.2.1 _ 0 rfl,
   claim_C4.2.2.2 _ 0 0 0 0 Easing.linear false
     (by norm_num [Time.framesAndWeight, Time.fwAux]) (Or.inl rfl)⟩

/-- C9: `ColorStops::evaluate` is total and atomic — whenever any required
channel of any of the `count` stop slots is absent from a bracketing row, the
result is the empty default stop list, never a partially assembled one. -/
theorem claim_C9 (cs : animated.ColorStops) (f : ℚ) (ix0 ix1 : ℕ) (t : ℚ) (e : Easing)
    (hold : Bool) (v0 v1 : List ℚ)
    (hfw : Time.framesAndWeight cs.frames f = some ((ix0, ix1), t, e, hold))
    (hv0 : cs.values[ix0]? = some v0) (hv1 : cs.values[ix1]? = some v1)
    (i : ℕ) (hi : i < cs.count) (k : ℕ) (hk : k < 5)
    (hmiss : v0[i * 5 + k]? = none ∨ v1[i * 5 + k]? = none) :
    cs.evaluate f = [] := by
  unfold animated.ColorStops.evaluate animated.ColorStops.evaluateInner
  simp only [hfw, hv0, hv1]
  cases haux : animated.ColorStops.stopsAux v0 v1 t e hold cs.count 0 with
  | none => simp
  | some l =>
    exfalso
    have hlen := stopsAux_length v0 v1 t e hold cs.count 0 l haux
    have hil : i < l.length := by omega
    obtain ⟨stop, hstop⟩ : ∃ stop, l[i]? = some stop :=
      ⟨l[i], List.getElem?_eq_getElem hil⟩
    have hslot := stopsAux_get v0 v1 t e hold cs.count 0 l haux i stop hstop
    rw [Nat.zero_add] at hslot
    obtain ⟨o0, o1, r0, r1, g0, g1, b0, b1, a0, a1, h1, h2, h3, h4, h5, h6, h7, h8, h9, h10,
      _⟩ := slot_eq_some hslot
    interval_cases k <;> rcases hmiss with hm | hm <;> simp_all

/-- C9 witness: color-stop rows of length 1 cannot supply the red channel of
the single requested slot, so evaluation yields the empty stop list. -/
theorem claim_C9_witness :
    animated.ColorStops.evaluate
      ⟨[⟨0, Easing.linear, false⟩, ⟨10, Easing.linear, false⟩], [[0], [0]], 1⟩ 5 = [] :=
  claim_C9 _ 5 0 1 (1/2) Easing.linear false [0] [0]
    (by norm_num [Time.framesAndWeight, Time.fwAux]) rfl rfl 0 (by norm_num) 1 (by norm_num)
    (Or.inl rfl)
